import Mathlib

/-!
Verification of the `ship` HTTP framework core (package `ship`, with
`utils` and `middleware` helpers) against its natural-language
specification.  The Go source is shallowly embedded: each Go function
relevant to a claim is translated into an executable Lean definition
over explicit state, and the claims are settled as theorems about those
definitions.

Conventions of the embedding:
  - Go `nil` values become `Option.none`.
  - a Go `panic` is modelled as the `Except.error` branch (or as an
    explicit outcome constructor when a function can observe a panic of
    a callee via `recover`);
  - side effects that the claims observe (writing a response, emitting a
    log entry, invoking a callback, putting an object into a pool) are
    returned as explicit data;
  - pointer identity of `*Ship` dispatchers is modelled by natural
    number identifiers.
-/

namespace Ship

/-! ## Errors and the default error handler (`Ship.handleError`)

The handler type-switches on `HTTPError`.  The `HTTPError` interface
itself lives in a source file that is not part of the excerpt, so its
data is modelled from the spec. -/

/-- Modelled from the spec: a structured HTTP error (the `HTTPError`
interface, whose defining file is absent from the excerpt) "carries
status code, user message, content type, and optional wrapped
underlying cause".  `message` is what the accessor `Message()` returns
(the preset user message, generic by default, e.g. the status text);
`errorText` is what the Go `error` method `Error()` returns (the full,
revealing error text). -/
structure HTTPErrorT where
  code : Nat
  contentType : String
  message : String
  errorText : String
  deriving Repr, DecidableEq

/-- Modelled from the spec: the values that can reach the default error
handler.  `http` is a structured `HTTPError`; `skip` is the designated
skip sentinel `ErrSkip` ("a response was already written; do not write
another"), defined in a source file absent from the excerpt; `plain`
is any other non-structured error, carrying its `Error()` text. -/
inductive ErrT where
  | http (he : HTTPErrorT)
  | skip
  | plain (text : String)
  deriving Repr, DecidableEq

/-- Observable outcome of one `handleError` call: the response written
(if any) and the log entries emitted.  `status = none` means no
response was written at all. -/
structure ErrorOutcome where
  status : Option Nat
  body : Option String
  contentType : Option String
  logs : List String
  deriving Repr, DecidableEq

/-- Embedding of `Ship.handleError` (src/unnamed/part_001:532-561).
`debug` is `ctx.IsDebug()`; `loggerPresent` is whether `ctx.Logger()`
returns a non-nil logger.  In the `HTTPError` branch the Go code takes
`msg := he.Message()`, overwrites it with `err.Error()` when
`400 <= code && code < 500` or when `code >= 500` in debug mode, sends
`ctx.Blob(code, ct, msg)`, and logs `err.Error()` when `code >= 500`
and the logger is non-nil.  For any other error it does nothing when
`err == ErrSkip`, and otherwise sends `ctx.NoContent(500)` (empty body)
and logs when the logger is non-nil. -/
def handleError (debug loggerPresent : Bool) (err : ErrT) : ErrorOutcome :=
  match err with
  | .http he =>
      let msg :=
        if 400 ≤ he.code ∧ he.code < 500 then he.errorText
        else if 500 ≤ he.code ∧ debug = true then he.errorText
        else he.message
      { status := some he.code
        body := some msg
        contentType := some he.contentType
        logs := if 500 ≤ he.code ∧ loggerPresent = true then [he.errorText] else [] }
  | .skip =>
      { status := none, body := none, contentType := none, logs := [] }
  | .plain text =>
      { status := some 500
        body := none
        contentType := none
        logs := if loggerPresent = true then [text] else [] }

/-! ## Request lifecycle (`Ship.handleRequest`)

The pipeline handler `s.handler(ctx)` may return an error (possibly
nil) or panic; the Go body of `handleRequest` contains no `defer`, so a
panic in the pipeline unwinds straight past both `HandleError` and
`ReleaseContext`. -/

/-- Outcome of running the composed pipeline handler on a context:
either it returns (with an optional error), or it panics with some
value (identified by a natural number). -/
inductive PipelineOutcome where
  | ret (err : Option ErrT)
  | panicked (v : Nat)
  deriving Repr, DecidableEq

/-- Observable effects of one `Ship.handleRequest` execution. -/
structure RequestOutcome where
  released : Bool
  errorHandlerCalled : Bool
  unwound : Bool
  deriving Repr, DecidableEq

/-- Embedding of `Ship.handleRequest` (src/unnamed/part_001:518-530):
acquire a context, run `s.handler(ctx)`; if the returned error is nil,
take `ctx.err` instead; if the result is non-nil, call
`s.config.HandleError`; finally call `s.ReleaseContext(ctx)`.  There is
no `defer`, so when the pipeline panics the function unwinds without
calling the error handler or releasing the context. -/
def handleRequest (outcome : PipelineOutcome) (ctxErr : Option ErrT) : RequestOutcome :=
  match outcome with
  | .panicked _ => { released := false, errorHandlerCalled := false, unwound := true }
  | .ret e =>
      let err := match e with
        | none => ctxErr
        | some x => some x
      { released := true, errorHandlerCalled := err.isSome, unwound := false }

/-! ## Context release (`Ship.ReleaseContext`) -/

/-- Modelled from the spec (the `contextT` source file is absent from
the excerpt): the per-request context scratch object, with captured
parameter slots, a key/value store, the terminal error slot and the
request/response binding ("Reset clears: parameter slots, key/value
store, error slot, rebinds request/response handles to nil"). -/
structure CtxT where
  pnames : List String
  pvalues : List String
  store : List (String × String)
  err : Option ErrT
  reqBound : Bool
  deriving Repr, DecidableEq

/-- Modelled from the spec: `contextT.reset` clears the parameter
slots, the store and the error slot and unbinds request/response. -/
def resetCtx (_c : CtxT) : CtxT :=
  { pnames := [], pvalues := [], store := [], err := none, reqBound := false }

/-- Embedding of `Ship.ReleaseContext` (src/unnamed/part_001:412-417):
`if c != nil { c.(*contextT).reset(); s.ctxpool.Put(c) }`.  The pool is
the list of free contexts; the result is the new pool, inside `Except`
so that a Go panic would be observable as `Except.error`. -/
def releaseContext (c : Option CtxT) (pool : List CtxT) : Except String (List CtxT) :=
  match c with
  | none => .ok pool
  | some ctx => .ok (resetCtx ctx :: pool)

/-! ## Panic-recovery middleware (`NewPanicMiddleware`) -/

/-- Outcome of the next handler as seen by the panic middleware: either
it returns an error (possibly nil), or it panics and the deferred
`recover()` observes the recovered value.  The payload is what
`recover()` returns: `some x` for a panic with the non-nil value `x`,
and `none` for a Go `panic(nil)`, which is recovered with `recover()`
returning nil. -/
inductive NextOutcome where
  | ret (e : Option ErrT)
  | panics (v : Option Nat)
  deriving Repr, DecidableEq

/-- Embedding of the handler returned by `NewPanicMiddleware(handle)`
applied to a next-handler outcome (src/middleware.go:51-68).  The Go
code uses a named result `err`, runs `err = next.Handle(ctx)` under a
`defer` that executes `if err := recover(); err != nil {
handlePanic(ctx, err) }` with a fresh shadowing variable: the callback
runs only when the recovered value is non-nil, so a `panic(nil)` is
recovered silently.  The named result is never assigned on any panic
path, so it stays nil.  The result is the returned error together with
the list of values the panic callback was invoked with. -/
def panicMiddleware (next : NextOutcome) : Option ErrT × List Nat :=
  match next with
  | .ret e => (e, [])
  | .panics v =>
      match v with
      | some x => (none, [x])
      | none => (none, [])

/-! ## Shutdown coordinator (`stopT`, `RegisterOnShutdown`, `runStop`, `stop`)

Shutdown callbacks are identified by natural numbers.  Each registered
callback is wrapped in a `stopT` carrying its own `sync.Once`; the
`stop` entry point is itself guarded by the ship-wide `once2`. -/

/-- Embedding of `stopT` (src/unnamed/part_001:249-252): a callback
wrapped with its own one-shot gate. -/
structure StopT where
  fired : Bool
  fid : Nat
  deriving Repr, DecidableEq

/-- Embedding of `stopT.run` (src/unnamed/part_001:254-256):
`s.once.Do(s.f)`.  Returns the updated gate and the trace of callback
invocations it performed (empty when the gate was already used). -/
def stopTRun (r : StopT) : StopT × List Nat :=
  if r.fired then (r, []) else ({ r with fired := true }, [r.fid])

/-- Shutdown-relevant state of a `Ship` (src/unnamed/part_001:258-280):
the registered callback list `stopfs`, the `once2` gate guarding
`stop`, and the `done` channel (closed flag). -/
structure ShutState where
  stopfs : List StopT
  once2Used : Bool
  doneClosed : Bool
  deriving Repr, DecidableEq

/-- State of a freshly constructed `Ship` (src/unnamed/part_001:283-298):
no callbacks, gates unused, `done` open. -/
def initShut : ShutState :=
  { stopfs := [], once2Used := false, doneClosed := false }

/-- Embedding of `Ship.RegisterOnShutdown` (src/unnamed/part_001:577-584):
appends one fresh `stopT` per given function, in argument order, to the
end of `stopfs`. -/
def registerOnShutdown (st : ShutState) (fs : List Nat) : ShutState :=
  { st with stopfs := st.stopfs ++ fs.map (fun f => { fired := false, fid := f }) }

/-- One step of the loop in `runStop`: run the next `stopT`, appending
any invocation to the trace. -/
def runStopStep (acc : List StopT × List Nat) (r : StopT) : List StopT × List Nat :=
  let p := stopTRun r
  (acc.1 ++ [p.1], acc.2 ++ p.2)

/-- Embedding of `Ship.runStop` (src/unnamed/part_001:627-634):
`for _, r := range s.stopfs { r.run() }` iterates `stopfs` front to
back, then the deferred `close(s.done)` runs.  Returns the new state
and the trace of callback invocations in execution order. -/
def runStop (st : ShutState) : ShutState × List Nat :=
  let p := st.stopfs.foldl runStopStep ([], [])
  ({ st with stopfs := p.1, doneClosed := true }, p.2)

/-- Embedding of `Ship.stop` (src/unnamed/part_001:636-638):
`s.once2.Do(s.runStop)`. -/
def stop (st : ShutState) : ShutState × List Nat :=
  if st.once2Used then (st, [])
  else runStop { st with once2Used := true }

/-- Invoking the shutdown trigger `n` times in sequence, concatenating
the callback-invocation traces. -/
def stopN : Nat → ShutState → ShutState × List Nat
  | 0, st => (st, [])
  | n + 1, st =>
      let p := stop st
      let q := stopN n p.1
      (q.1, p.2 ++ q.2)

/-! ## Pre-middleware composition (`Ship.Pre`) -/

/-- Embedding of the composition loop in `Ship.Pre`
(src/unnamed/part_001:431-441): `handler := s.handleRequestRoute;
for i := len(pms) - 1; i >= 0; i-- { handler = pms[i](handler) }`.
The loop visits the list back to front, which is a left fold over the
reversed list. -/
def composePre {α : Type} (pms : List (α → α)) (terminal : α) : α :=
  pms.reverse.foldl (fun h m => m h) terminal

/-- Events observed while a traced middleware chain executes. -/
inductive Ev where
  | enter (i : Nat)
  | exit (i : Nat)
  | term
  deriving Repr, DecidableEq

/-- Handlers instrumented for order observation: a handler appends the
events it produces to the trace accumulated so far. -/
def TracedHandler : Type := List Ev → List Ev

/-- The traced middleware with identity `i`: records entry, runs the
inner handler, records exit. -/
def traceMw (i : Nat) (h : TracedHandler) : TracedHandler :=
  fun tr => h (tr ++ [Ev.enter i]) ++ [Ev.exit i]

/-- The traced terminal handler (route dispatch): records one event. -/
def traceTerm : TracedHandler :=
  fun tr => tr ++ [Ev.term]

/-! ## Dispatcher linking (`Ship.Link`) and shutdown registration at
serve start (`Ship.startServer`)

Dispatchers are identified by natural numbers; the global linking state
maps each dispatcher to its `links` slice. -/

/-- The linking state: `links` slice of every dispatcher. -/
def LinkState : Type := Nat → List Nat

/-- All `links` slices empty, as after `New`. -/
def emptyLinks : LinkState := fun _ => []

/-- Embedding of `Ship.Link` (src/unnamed/part_001:348-359): if `other`
already occurs in `s.links`, return unchanged; otherwise append `other`
to `s.links` and then `s` to `other.links` (two sequential slice
appends). -/
def linkOp (st : LinkState) (s other : Nat) : LinkState :=
  if other ∈ st s then st
  else
    let st1 : LinkState := fun i => if i = s then st s ++ [other] else st i
    fun i => if i = other then st1 i ++ [s] else st1 i

/-- A sequence of `Link` calls between dispatchers `x` and `y`, one per
list element: `true` stands for `x.Link(y)` and `false` for
`y.Link(x)`. -/
def runLinks (x y : Nat) (dirs : List Bool) (st : LinkState) : LinkState :=
  dirs.foldl (fun st d => if d then linkOp st x y else linkOp st y x) st

/-- Embedding of the link-registration loop in `Ship.startServer`
(src/unnamed/part_001:663-666): for each `r` in `s.links`, register
`r.shutdown` as a shutdown callback of `s` and `s.shutdown` as a
shutdown callback of `r`.  Each performed registration is recorded as a
pair `(owner of the callback list, owner of the shutdown trigger)`. -/
def startServerRegs (st : LinkState) (s : Nat) : List (Nat × Nat) :=
  (st s).foldl (fun acc r => acc ++ [(s, r), (r, s)]) []

/-! ## Virtual-host dispatch (`Ship.ServeHTTP`) and creation
(`Ship.VHost`) -/

/-- Look up a host in the virtual-host table.  Go map entries are only
ever set to non-nil dispatchers by `VHost`, so an association list of
registered hosts models `s.vhosts[host] != nil` exactly: a hit is the
first pair whose key equals the host string. -/
def vhostLookup (m : List (String × Nat)) (host : String) : Option Nat :=
  match m with
  | [] => none
  | (k, v) :: rest => if k = host then some v else vhostLookup rest host

/-- The vhost-relevant state of a dispatcher: its own identifier and
its virtual-host table (`none` models a nil `vhosts` map, i.e. a
virtual-host child). -/
structure HostShip where
  selfId : Nat
  vhosts : Option (List (String × Nat))
  deriving Repr, DecidableEq

/-- Embedding of `Ship.ServeHTTP` (src/unnamed/part_001:498-507): if
`s.vhosts != nil` and `s.vhosts[r.Host]` is non-nil, the request is
handled by `vhost.handleRequest(vhost.router, w, r)`; otherwise by
`s.handleRequest(s.router, w, r)`.  The result records which dispatcher
handles the request and whose router is used. -/
def serveHTTPSelect (s : HostShip) (host : String) : Nat × Nat :=
  match s.vhosts with
  | some m =>
      match vhostLookup m host with
      | some v => (v, v)
      | none => (s.selfId, s.selfId)
  | none => (s.selfId, s.selfId)

/-- Result of `Ship.VHost`: the parent state after registration and the
fresh child dispatcher state. -/
structure VHostResult where
  parent : HostShip
  child : HostShip
  deriving Repr, DecidableEq

/-- Embedding of `Ship.VHost` (src/unnamed/part_001:366-377): panic
(modelled as `Except.error` with the panic message) when the receiver
is itself a virtual host (`s.vhosts == nil`) or when the host is
already registered (`s.vhosts[host] != nil`); otherwise create a fresh
dispatcher via `New(s.config)` (identified by `freshId`), set its
`vhosts` map to nil, register it under `host` and return it. -/
def vhostOp (s : HostShip) (host : String) (freshId : Nat) :
    Except String VHostResult :=
  match s.vhosts with
  | none => .error "the virtual host cannot create the virtual host"
  | some m =>
      match vhostLookup m host with
      | some _ => .error ("the virtual host has been added: " ++ host)
      | none =>
          .ok { parent := { s with vhosts := some (m ++ [(host, freshId)]) }
                child := { selfId := freshId, vhosts := none } }

/-! ## Theorems for the claims -/

/-- C2: for every structured HTTP error handled by the default error
handler, the response status equals the error code; the body reveals
the error text for codes 400-499; for codes at least 500 the body is
the error text in debug mode and the preset (generic) message
otherwise; and for codes at least 500 with a non-nil logger exactly one
error log entry is produced. -/
theorem claim_c2 (he : HTTPErrorT) (debug loggerPresent : Bool) :
    (handleError debug loggerPresent (.http he)).status = some he.code
    ∧ (400 ≤ he.code → he.code < 500 →
        (handleError debug loggerPresent (.http he)).body = some he.errorText)
    ∧ (500 ≤ he.code →
        (handleError debug loggerPresent (.http he)).body
          = some (if debug = true then he.errorText else he.message))
    ∧ (500 ≤ he.code → loggerPresent = true →
        (handleError debug loggerPresent (.http he)).logs = [he.errorText]) := by
  refine ⟨rfl, ?_, ?_, ?_⟩
  · intro h1 h2
    simp only [handleError]
    rw [if_pos ⟨h1, h2⟩]
  · intro h5
    simp only [handleError]
    rw [if_neg (by omega)]
    cases debug with
    | true => rw [if_pos ⟨h5, rfl⟩]; simp
    | false =>
        rw [if_neg (by simp)]
        simp
  · intro h5 hl
    simp only [handleError]
    rw [if_pos ⟨h5, hl⟩]

/-- Witness for C2 at concrete inputs: a 502 error with debug off and a
logger present sends the generic preset message and logs the error
text once; a 404 error reveals the error text. -/
theorem claim_c2_witness :
    (handleError false true
        (.http ⟨502, "text/plain", "Bad Gateway", "db down"⟩)).body
      = some "Bad Gateway"
    ∧ (handleError false true
        (.http ⟨502, "text/plain", "Bad Gateway", "db down"⟩)).logs
      = ["db down"]
    ∧ (handleError false true
        (.http ⟨404, "text/plain", "Not Found", "no such user"⟩)).body
      = some "no such user" := by
  have h1 := claim_c2 ⟨502, "text/plain", "Bad Gateway", "db down"⟩ false true
  have h2 := claim_c2 ⟨404, "text/plain", "Not Found", "no such user"⟩ false true
  refine ⟨?_, h1.2.2.2 (by decide) rfl, h2.2.1 (by decide) (by decide)⟩
  have hb := h1.2.2.1 (by decide)
  simpa using hb

/-- C3 counterexample: when the pipeline panics, `handleRequest`
unwinds without releasing the context (there is no `defer` around
`ReleaseContext`), so the context is not released on every execution
path. -/
theorem claim_c3_counterexample :
    (handleRequest (.panicked 0) none).released = false
    ∧ (handleRequest (.panicked 0) none).unwound = true := by
  exact ⟨rfl, rfl⟩

/-- C3 amended: the error handler is invoked exactly when the pipeline
handler returned a non-nil error or the context error slot is non-nil,
and the context is released on every non-panicking execution path; a
pipeline panic unwinds past both the error handler and the release. -/
theorem claim_c3_amended (e ctxErr : Option ErrT) (v : Nat) :
    (handleRequest (.ret e) ctxErr).released = true
    ∧ (handleRequest (.ret e) ctxErr).errorHandlerCalled
        = (e.isSome || ctxErr.isSome)
    ∧ (handleRequest (.panicked v) ctxErr).released = false
    ∧ (handleRequest (.panicked v) ctxErr).errorHandlerCalled = false := by
  cases e <;> simp [handleRequest]

/-- C7 counterexample: for a plain non-skip error the claimed "exactly
one log entry" fails when the logger is nil: the `handleError` branch
for non-structured errors guards its log call with a nil check, so zero
entries are produced although the 500 response is written. -/
theorem claim_c7_counterexample :
    (handleError false false (.plain "boom")).status = some 500
    ∧ (handleError false false (.plain "boom")).logs = [] := by
  exact ⟨rfl, rfl⟩

/-- C7 amended: the skip sentinel produces no response and no log
entry; any other non-structured error produces a generic status-500
response with no revealing body, and exactly one log entry when the
logger is non-nil (none when it is nil). -/
theorem claim_c7_amended (debug loggerPresent : Bool) (text : String) :
    handleError debug loggerPresent .skip
      = { status := none, body := none, contentType := none, logs := [] }
    ∧ (handleError debug loggerPresent (.plain text)).status = some 500
    ∧ (handleError debug loggerPresent (.plain text)).body = none
    ∧ (handleError debug loggerPresent (.plain text)).logs.length
        = (if loggerPresent = true then 1 else 0) := by
  cases loggerPresent <;> simp [handleError]

/-- C8 counterexample: a handler that panics with the nil value is
recovered by the middleware without invoking the panic callback (the
recover guard `err != nil` fails), refuting the claim that the callback
is invoked with every panicking value: here the callback invocation
list is empty while a nil error is still returned. -/
theorem claim_c8_counterexample :
    panicMiddleware (.panics none) = (none, []) := by
  rfl

/-- C8 amended: a handler that panics with any non-nil value `v`, once
wrapped by the panic middleware, invokes the panic callback with `v`
and returns a nil error; a handler panicking with the nil value is
still recovered and a nil error returned, but the callback is not
invoked; so in no case is the panic converted into a non-nil error
visible to the dispatcher's error-handling path, and a returning
handler passes its error through with no callback invocation. -/
theorem claim_c8_amended (v : Nat) (e : Option ErrT) :
    panicMiddleware (.panics (some v)) = (none, [v])
    ∧ panicMiddleware (.panics none) = (none, [])
    ∧ panicMiddleware (.ret e) = (e, []) := by
  exact ⟨rfl, rfl, rfl⟩

/-- C9: releasing a nil context is a no-op: no panic (the result is
`ok`), nothing is reset and nothing is put into the context pool. -/
theorem claim_c9 (pool : List CtxT) :
    releaseContext none pool = .ok pool := by
  rfl

/-- C4: the composition loop of `Pre` produces the nested application
with the first-registered middleware outermost: the empty list yields
the terminal handler and a head middleware is applied to the
composition of the tail, so the composed handler is
mw[0] applied to mw[1] applied to ... applied to the terminal; on the
traced instantiation with middlewares 0 and 1 the observed event order
is enter 0, enter 1, terminal, exit 1, exit 0. -/
theorem claim_c4 {α : Type} (m : α → α) (ms : List (α → α)) (t : α) :
    composePre ([] : List (α → α)) t = t
    ∧ composePre (m :: ms) t = m (composePre ms t)
    ∧ composePre [traceMw 0, traceMw 1] traceTerm []
        = [Ev.enter 0, Ev.enter 1, Ev.term, Ev.exit 1, Ev.exit 0] := by
  refine ⟨rfl, ?_, rfl⟩
  simp [composePre, List.foldl_append]

/-- Every `stopT` produced by `registerOnShutdown` starts unfired. -/
theorem registerOnShutdown_unfired (fs : List Nat) (r : StopT)
    (h : r ∈ (registerOnShutdown initShut fs).stopfs) : r.fired = false := by
  simp only [registerOnShutdown, initShut, List.nil_append, List.mem_map] at h
  obtain ⟨f, _, rfl⟩ := h
  rfl

/-- The `runStop` loop over a list of unfired `stopT` entries fires
every entry and emits every callback, in list order. -/
theorem foldl_runStopStep_unfired (l : List StopT) (acc : List StopT × List Nat)
    (h : ∀ r ∈ l, r.fired = false) :
    l.foldl runStopStep acc
      = (acc.1 ++ l.map (fun r => { r with fired := true }),
         acc.2 ++ l.map StopT.fid) := by
  induction l generalizing acc with
  | nil => simp
  | cons r rest ih =>
      have hr : r.fired = false := h r (by simp)
      have hrest : ∀ x ∈ rest, x.fired = false := fun x hx => h x (by simp [hx])
      simp only [List.foldl_cons]
      rw [ih _ hrest]
      simp [runStopStep, stopTRun, hr]

/-- After the `once2` gate has been consumed, further invocations of
the shutdown trigger do nothing and invoke no callback. -/
theorem stopN_after_once2 (n : Nat) (st : ShutState)
    (h : st.once2Used = true) : stopN n st = (st, []) := by
  induction n with
  | zero => rfl
  | succ n ih => simp [stopN, stop, h, ih]

/-- C1 counterexample: registering callbacks 0 then 1 and invoking the
shutdown trigger once runs them in registration order 0, 1 — not in
the claimed reverse registration order 1, 0 (the loop in `runStop`
ranges over `stopfs` front to back). -/
theorem claim_c1_counterexample :
    (stopN 1 (registerOnShutdown initShut [0, 1])).2 = [0, 1]
    ∧ (((stopN 1 (registerOnShutdown initShut [0, 1])).2 == [1, 0]) = false) := by
  exact ⟨by decide, by decide⟩

/-- C1 amended: for every sequence of registered shutdown callbacks and
every number of trigger invocations of at least one, each registered
callback runs exactly once, in registration order (first registered
first): the full invocation trace equals the registration sequence. -/
theorem claim_c1_amended (fs : List Nat) (n : Nat) (h : 1 ≤ n) :
    (stopN n (registerOnShutdown initShut fs)).2 = fs := by
  obtain ⟨m, rfl⟩ : ∃ m, n = m + 1 := ⟨n - 1, by omega⟩
  have hreg : registerOnShutdown initShut fs
      = { stopfs := fs.map (fun f => { fired := false, fid := f }),
          once2Used := false, doneClosed := false } := by
    simp [registerOnShutdown, initShut]
  have hstop : stop (registerOnShutdown initShut fs)
      = ({ stopfs := fs.map (fun f => { fired := true, fid := f }),
           once2Used := true, doneClosed := true }, fs) := by
    rw [hreg]
    simp only [stop, runStop]
    rw [if_neg (by simp)]
    rw [foldl_runStopStep_unfired _ _ (by
      intro r hr
      simp only [List.mem_map] at hr
      obtain ⟨f, _, rfl⟩ := hr
      rfl)]
    simp only [List.map_map, List.nil_append]
    have h2 : List.map (StopT.fid ∘ fun f => ({ fired := false, fid := f } : StopT)) fs
        = fs := by
      rw [show (StopT.fid ∘ fun f => ({ fired := false, fid := f } : StopT)) = id from rfl]
      exact List.map_id fs
    rw [h2]
    rfl
  simp only [stopN, hstop]
  rw [stopN_after_once2 m _ rfl]
  simp

/-- Witness for C1 amended: two registered callbacks 5 and 7 with two
trigger invocations run exactly once each, first registered first. -/
theorem claim_c1_amended_witness :
    (stopN 2 (registerOnShutdown initShut [5, 7])).2 = [5, 7] := by
  exact claim_c1_amended [5, 7] 2 (by decide)

/-- A host-table lookup misses exactly when no registered key equals
the requested host string. -/
theorem vhostLookup_eq_none (m : List (String × Nat)) (host : String)
    (h : ∀ kv ∈ m, kv.1 ≠ host) : vhostLookup m host = none := by
  induction m with
  | nil => rfl
  | cons kv rest ih =>
      have hk : kv.1 ≠ host := h kv (by simp)
      simp only [vhostLookup]
      rw [if_neg hk]
      exact ih fun x hx => h x (by simp [hx])

/-- A host-table lookup hit returns a pair that is registered in the
table under exactly the requested host string. -/
theorem vhostLookup_mem (m : List (String × Nat)) (host : String) (v : Nat)
    (h : vhostLookup m host = some v) : (host, v) ∈ m := by
  induction m with
  | nil => simp [vhostLookup] at h
  | cons kv rest ih =>
      simp only [vhostLookup] at h
      by_cases hk : kv.1 = host
      · rw [if_pos hk] at h
        cases h
        rw [← hk]
        exact List.mem_cons_self _ _
      · rw [if_neg hk] at h
        exact List.mem_cons_of_mem _ (ih h)

/-- Appending a fresh host at the end of a table that does not contain
it makes lookups of that host return the fresh entry. -/
theorem vhostLookup_append (m : List (String × Nat)) (host : String) (v : Nat)
    (h : vhostLookup m host = none) :
    vhostLookup (m ++ [(host, v)]) host = some v := by
  induction m with
  | nil => simp [vhostLookup]
  | cons kv rest ih =>
      simp only [vhostLookup] at h ⊢
      by_cases hk : kv.1 = host
      · rw [if_pos hk] at h
        exact absurd h (by simp)
      · rw [if_neg hk] at h ⊢
        exact ih h

/-- C6: `ServeHTTP` selects the handling dispatcher by exact string
match of the request host against the registered virtual hosts: on a
hit the matched virtual host handles the request with its own router,
on a miss (or when the dispatcher has no virtual-host table) the
default (self) dispatcher handles it with its own router. -/
theorem claim_c6 (m : List (String × Nat)) (selfId : Nat) (host : String) :
    serveHTTPSelect { selfId := selfId, vhosts := none } host = (selfId, selfId)
    ∧ ((∀ kv ∈ m, kv.1 ≠ host) →
        serveHTTPSelect { selfId := selfId, vhosts := some m } host
          = (selfId, selfId))
    ∧ (∀ v, vhostLookup m host = some v →
        serveHTTPSelect { selfId := selfId, vhosts := some m } host = (v, v)
        ∧ (host, v) ∈ m) := by
  refine ⟨rfl, ?_, ?_⟩
  · intro h
    simp [serveHTTPSelect, vhostLookup_eq_none m host h]
  · intro v hv
    exact ⟨by simp [serveHTTPSelect, hv], vhostLookup_mem m host v hv⟩

/-- Witness for C6: with virtual host a.example registered as
dispatcher 5 under default dispatcher 0, a request with host a.example
is handled by dispatcher 5 with router 5, and one with host b.example
by the default dispatcher 0. -/
theorem claim_c6_witness :
    serveHTTPSelect { selfId := 0, vhosts := some [("a.example", 5)] } "a.example"
      = (5, 5)
    ∧ serveHTTPSelect { selfId := 0, vhosts := some [("a.example", 5)] } "b.example"
      = (0, 0) := by
  have h1 := (claim_c6 [("a.example", 5)] 0 "a.example").2.2 5 (by decide)
  have h2 := (claim_c6 [("a.example", 5)] 0 "b.example").2.1 (by decide)
  exact ⟨h1.1, h2⟩

/-- C10: `VHost` panics exactly when the receiver is itself a
virtual-host child (its vhosts table is nil) or the host is already
registered; otherwise it returns a fresh dispatcher whose own vhosts
table is nil and registers it under the host. -/
theorem claim_c10 (s : HostShip) (host : String) (freshId : Nat) :
    ((vhostOp s host freshId).toOption = none
        ↔ (s.vhosts = none
            ∨ ∃ m, s.vhosts = some m ∧ vhostLookup m host ≠ none))
    ∧ (∀ m, s.vhosts = some m → vhostLookup m host = none →
        vhostOp s host freshId
          = .ok { parent := { s with vhosts := some (m ++ [(host, freshId)]) }
                  child := { selfId := freshId, vhosts := none } }
        ∧ vhostLookup (m ++ [(host, freshId)]) host = some freshId) := by
  constructor
  · cases hv : s.vhosts with
    | none => simp [vhostOp, hv, Except.toOption]
    | some m =>
        cases hl : vhostLookup m host with
        | none => simp [vhostOp, hv, hl, Except.toOption]
        | some v => simp [vhostOp, hv, hl, Except.toOption]
  · intro m hm hl
    refine ⟨?_, vhostLookup_append m host freshId hl⟩
    simp [vhostOp, hm, hl]

/-- Witness for C10: a root dispatcher with host table containing only
h1 panics on re-adding h1, while adding h2 as dispatcher 9 succeeds,
the child has a nil vhosts table and h2 resolves to the child; a
virtual-host child refuses to create a virtual host. -/
theorem claim_c10_witness :
    (vhostOp { selfId := 0, vhosts := none } "h2" 9).toOption = none
    ∧ vhostOp { selfId := 0, vhosts := some [("h1", 4)] } "h2" 9
        = .ok { parent := { selfId := 0, vhosts := some [("h1", 4), ("h2", 9)] }
                child := { selfId := 9, vhosts := none } }
    ∧ vhostLookup [("h1", 4), ("h2", 9)] "h2" = some 9 := by
  have h1 := (claim_c10 { selfId := 0, vhosts := none } "h2" 9).1.mpr (Or.inl rfl)
  have h2 := (claim_c10 { selfId := 0, vhosts := some [("h1", 4)] } "h2" 9).2
      [("h1", 4)] rfl (by decide)
  exact ⟨h1, h2.1, h2.2⟩

/-- When the peer is already linked, `Link` changes nothing. -/
theorem linkOp_noop (st : LinkState) (a b : Nat) (h : b ∈ st a) :
    linkOp st a b = st := by
  simp [linkOp, h]

/-- When the peer is not yet linked, `Link` appends it to the
receiver's list. -/
theorem linkOp_new_fst (st : LinkState) (a b : Nat) (hab : a ≠ b)
    (h : b ∉ st a) : linkOp st a b a = st a ++ [b] := by
  simp [linkOp, h, hab]

/-- When the peer is not yet linked, `Link` appends the receiver to the
peer's list. -/
theorem linkOp_new_snd (st : LinkState) (a b : Nat) (hab : a ≠ b)
    (h : b ∉ st a) : linkOp st a b b = st b ++ [a] := by
  simp [linkOp, h, Ne.symm hab]

/-- One `Link` call between two distinct dispatchers whose mutual link
counts are equal and at most one leaves each present exactly once in
the other's list. -/
theorem linkOp_count (a b : Nat) (hab : a ≠ b) (st : LinkState)
    (h1 : (st a).count b = (st b).count a) (h2 : (st a).count b ≤ 1) :
    ((linkOp st a b) a).count b = 1 ∧ ((linkOp st a b) b).count a = 1 := by
  by_cases hmem : b ∈ st a
  · rw [linkOp_noop st a b hmem]
    have hpos : 0 < (st a).count b := List.count_pos_iff.mpr hmem
    constructor
    · omega
    · rw [← h1]; omega
  · have h0 : (st a).count b = 0 := List.count_eq_zero.mpr hmem
    have h0' : (st b).count a = 0 := by rw [← h1]; exact h0
    rw [linkOp_new_fst st a b hab hmem, linkOp_new_snd st a b hab hmem]
    simp [h0, h0']

/-- Any sequence of `Link` calls between two distinct dispatchers
preserves the mutual-count invariant, and a nonempty sequence leaves
each dispatcher exactly once in the other's list. -/
theorem runLinks_invariant (x y : Nat) (hxy : x ≠ y) :
    ∀ (dirs : List Bool) (st : LinkState),
      (st x).count y = (st y).count x → (st x).count y ≤ 1 →
      ((runLinks x y dirs st x).count y = (runLinks x y dirs st y).count x
        ∧ (runLinks x y dirs st x).count y ≤ 1)
      ∧ (dirs ≠ [] → (runLinks x y dirs st x).count y = 1
          ∧ (runLinks x y dirs st y).count x = 1) := by
  intro dirs
  induction dirs with
  | nil =>
      intro st h1 h2
      exact ⟨⟨h1, h2⟩, fun h => absurd rfl h⟩
  | cons d rest ih =>
      intro st h1 h2
      have hstep : ((if d then linkOp st x y else linkOp st y x) x).count y = 1
          ∧ ((if d then linkOp st x y else linkOp st y x) y).count x = 1 := by
        cases d with
        | true => simpa using linkOp_count x y hxy st h1 h2
        | false =>
            have h2y : (st y).count x ≤ 1 := by rw [← h1]; exact h2
            have hc := linkOp_count y x (Ne.symm hxy) st h1.symm h2y
            simpa using ⟨hc.2, hc.1⟩
      have hrw : runLinks x y (d :: rest) st
          = runLinks x y rest (if d then linkOp st x y else linkOp st y x) := by
        simp [runLinks]
      rw [hrw]
      obtain ⟨hc1, hc2⟩ := hstep
      obtain ⟨hinv, hlast⟩ := ih _ (hc1.trans hc2.symm) (le_of_eq hc1)
      refine ⟨hinv, fun _ => ?_⟩
      cases rest with
      | nil => exact ⟨hc1, hc2⟩
      | cons e es => exact hlast (by simp)

/-- Counting the registrations performed by the `startServer` loop: for
distinct dispatchers, each occurrence of `r` in `s.links` contributes
exactly one registration of the trigger of `r` with `s` and one of the
trigger of `s` with `r`. -/
theorem startServerRegs_aux (s r : Nat) (hsr : s ≠ r) :
    ∀ (l : List Nat) (acc : List (Nat × Nat)),
      ((l.foldl (fun acc t => acc ++ [(s, t), (t, s)]) acc).count (s, r)
          = acc.count (s, r) + l.count r)
      ∧ ((l.foldl (fun acc t => acc ++ [(s, t), (t, s)]) acc).count (r, s)
          = acc.count (r, s) + l.count r) := by
  intro l
  induction l with
  | nil => intro acc; simp
  | cons t rest ih =>
      intro acc
      simp only [List.foldl_cons]
      obtain ⟨ih1, ih2⟩ := ih (acc ++ [(s, t), (t, s)])
      constructor
      · rw [ih1]
        simp only [List.count_append, List.count_cons, List.count_nil]
        by_cases htr : t = r
        · subst htr
          simp [hsr, Prod.ext_iff]
          omega
        · simp [hsr, htr, Prod.ext_iff, Ne.symm htr]
      · rw [ih2]
        simp only [List.count_append, List.count_cons, List.count_nil]
        by_cases htr : t = r
        · subst htr
          simp [hsr, Prod.ext_iff, Ne.symm hsr]
          omega
        · simp [hsr, htr, Prod.ext_iff, Ne.symm htr]

/-- The registration counts of one `startServer` run equal the link
count of the peer in the starter's list, in both directions. -/
theorem startServerRegs_count (st : LinkState) (s r : Nat) (hsr : s ≠ r) :
    (startServerRegs st s).count (s, r) = (st s).count r
    ∧ (startServerRegs st s).count (r, s) = (st s).count r := by
  obtain ⟨h1, h2⟩ := startServerRegs_aux s r hsr (st s) []
  constructor
  · rw [startServerRegs, h1]; simp
  · rw [startServerRegs, h2]; simp

/-- C5: for distinct dispatchers x and y and any sequence of `Link`
calls between them in either direction, x occurs at most once in the
links list of y and y at most once in that of x; and once they are
linked at all, when serving starts on either one the `startServer` loop
registers the shutdown trigger of each as a shutdown callback of the
other exactly once. -/
theorem claim_c5 (x y : Nat) (hxy : x ≠ y) (dirs : List Bool) :
    ((runLinks x y dirs emptyLinks x).count y ≤ 1
      ∧ (runLinks x y dirs emptyLinks y).count x ≤ 1)
    ∧ (dirs ≠ [] →
        (startServerRegs (runLinks x y dirs emptyLinks) x).count (x, y) = 1
        ∧ (startServerRegs (runLinks x y dirs emptyLinks) x).count (y, x) = 1
        ∧ (startServerRegs (runLinks x y dirs emptyLinks) y).count (y, x) = 1
        ∧ (startServerRegs (runLinks x y dirs emptyLinks) y).count (x, y) = 1) := by
  obtain ⟨⟨hinv1, hinv2⟩, hlast⟩ :=
    runLinks_invariant x y hxy dirs emptyLinks rfl (by simp [emptyLinks])
  constructor
  · exact ⟨hinv2, by rw [← hinv1]; exact hinv2⟩
  · intro hne
    obtain ⟨he1, he2⟩ := hlast hne
    obtain ⟨hs1, hs2⟩ := startServerRegs_count (runLinks x y dirs emptyLinks) x y hxy
    obtain ⟨hs3, hs4⟩ :=
      startServerRegs_count (runLinks x y dirs emptyLinks) y x (Ne.symm hxy)
    exact ⟨by rw [hs1, he1], by rw [hs2, he1], by rw [hs3, he2], by rw [hs4, he2]⟩

/-- Witness for C5: dispatchers 0 and 1 linked three times in mixed
directions appear exactly once in each other's lists, and a serve
start on 0 registers each trigger with the other exactly once. -/
theorem claim_c5_witness :
    (runLinks 0 1 [true, false, true] emptyLinks 0).count 1 ≤ 1
    ∧ (startServerRegs (runLinks 0 1 [true, false, true] emptyLinks) 0).count (0, 1)
        = 1
    ∧ (startServerRegs (runLinks 0 1 [true, false, true] emptyLinks) 0).count (1, 0)
        = 1 := by
  have h := claim_c5 0 1 (by decide) [true, false, true]
  exact ⟨h.1.1, (h.2 (by simp)).1, (h.2 (by simp)).2.1⟩

end Ship
